import Mathlib

/-!
# puma-dev (Linux entry point): a shallow embedding of `cmd/puma-dev/main_linux.go`

The file embeds the `main` function of the Linux command, together with the two
signal-handling goroutines it starts, and proves properties of its control flow
and of the configuration it hands to the `AppPool` and the `HTTPServer`.

Conventions of the embedding:

* Go strings are Lean `String`s.  The only separator `main` splits on is the
  one-byte string ":" (a byte that never occurs inside a multi-byte UTF-8
  sequence), so splitting on characters and on bytes agree.
* Go `int` and `time.Duration` values are `Int`s (no arithmetic is performed on
  them by `main`, so no wrap-around can occur).
* Calls into other packages (`dev`, `homedir`, `os`) are effects recorded in a
  trace; what they return is supplied by an environment `Env`.
* A call that never returns is modelled by the outcome `Outcome.blocked`.
* `parseFlags()` and `allCheck()` are defined in other files of package `main`;
  the runs described are those in which both return, and `Flags` holds the
  flag values as `parseFlags()` left them.
* Each goroutine is a step machine driven by a schedule of events, so that
  properties of a handler hold for every interleaving of signal deliveries
  with its own steps.
-/

namespace PumaDev

/-! ## Library functions used by `main` -/

/-- Position of the first occurrence of the byte `sep` in `s` (`strings.Index`
for a one-byte separator); `none` stands for Go's `-1`. -/
def stringsIndex (sep : Char) : List Char → Option Nat
  | [] => none
  | c :: cs => if c = sep then some 0 else (stringsIndex sep cs).map (· + 1)

/-- Number of occurrences of the byte `sep` in `s` (`strings.Count`). -/
def stringsCount (sep : Char) : List Char → Nat
  | [] => 0
  | c :: cs => if c = sep then stringsCount sep cs + 1 else stringsCount sep cs

/-- The loop of `strings.genSplit`: `k` is the number of cuts still allowed
(`n - 1 - i` in the Go code); each round cuts `s` at the first separator, and
the remainder of the string is the last element. -/
def genSplitLoop (sep : Char) : Nat → List Char → List (List Char)
  | 0, s => [s]
  | k + 1, s =>
    match stringsIndex sep s with
    | none => [s]
    | some m => s.take m :: genSplitLoop sep k (s.drop (m + 1))

/-- The function `strings.genSplit(s, sep, 0, -1)` for a one-byte separator:
`n` is `Count(s, sep) + 1`, and the loop makes at most `n - 1` cuts. -/
def genSplit (sep : Char) (s : List Char) : List (List Char) :=
  genSplitLoop sep (stringsCount sep s) s

/-- The function `strings.Split(s, sep)` for a one-byte separator. -/
def stringsSplit (s : String) (sep : Char) : List String :=
  (genSplit sep s.data).map String.mk

/-- Concatenation of `elems` with `sep` between consecutive elements. -/
def joinChars (sep : List Char) : List (List Char) → List Char
  | [] => []
  | [a] => a
  | a :: b :: rest => a ++ sep ++ joinChars sep (b :: rest)

/-- The function `strings.Join(elems, sep)`. -/
def stringsJoin (elems : List String) (sep : String) : String :=
  String.mk (joinChars sep.data (elems.map String.data))

/-- The verb `%d` of `fmt` applied to an integer: its decimal representation,
with a leading minus sign for a negative number. -/
def fmtD (n : Int) : String := toString n

/-- One second as a `time.Duration` (nanoseconds). -/
def timeSecond : Int := 1000000000

/-! ## Data model -/

/-- The flag variables declared at lines 17-27, as they stand after
`parseFlags()`. -/
structure Flags where
  fDebug : Bool
  fDomains : String
  fHTTPPort : Int
  fTLSPort : Int
  fSysBind : Bool
  fDir : String
  fTimeout : Int
  fStop : Bool
  deriving DecidableEq, Repr

/-- The default value each flag is declared with. -/
def defaultFlags : Flags where
  fDebug := false
  fDomains := "dev"
  fHTTPPort := 9280
  fTLSPort := 9283
  fSysBind := false
  fDir := "~/.puma-dev"
  fTimeout := 15 * 60 * timeSecond
  fStop := false

/-- Addresses of the local variables of `main` that are shared by reference. -/
inductive Addr
  | events
  | pool
  deriving DecidableEq, Repr

/-- The fields of `dev.AppPool` that `main` assigns; `Events` is a pointer. -/
structure AppPool where
  Dir : String
  IdleTime : Int
  Events : Option Addr
  deriving DecidableEq, Repr

/-- The fields of `dev.HTTPServer` that `main` assigns; `Pool` and `Events` are
pointers.  Every other field of the struct keeps its zero value. -/
structure HTTPServer where
  Address : String
  TLSAddress : String
  Pool : Option Addr
  Debug : Bool
  Events : Option Addr
  deriving DecidableEq, Repr

/-- Signals a process can be sent. -/
inductive Signal
  | SIGUSR1
  | Interrupt
  | SIGQUIT
  | SIGTERM
  | other (n : Nat)
  deriving DecidableEq, Repr

/-- The two channels `main` makes. -/
inductive Chan
  | purge
  | stop
  deriving DecidableEq, Repr

/-- The goroutines `main` starts. -/
inductive Goroutine
  | purgeLoop
  | stopHandler
  | serveTLS (srv : HTTPServer)
  deriving DecidableEq, Repr

/-- Observable actions of `main` and of its goroutines. -/
inductive Effect
  | parseFlags
  | allCheck
  | devStop
  | homedirExpand (path : String)
  | mkdirAll (dir : String) (perm : Nat)
  | makeChan (c : Chan) (cap : Nat)
  | signalNotify (c : Chan) (sigs : List Signal)
  | go (g : Goroutine)
  | setupOurCert
  | printf (s : String)
  | httpSetup (srv : HTTPServer)
  | httpServe (srv : HTTPServer)
  | logFatalf (msg : String)
  | chanRecv (c : Chan)
  | purgeCall
  | purgeReturn
  | osExit (code : Int)
  deriving DecidableEq, Repr

/-- What the calls `main` makes into other packages return.  An error is its
message; `none` in `serve` and `serveTLS` means the call never returns. -/
structure Env where
  stop : Option String
  expand : String → Except String String
  mkdirAll : String → Option String
  setupOurCert : Option String
  setup : Option String
  serveTLS : Option (Option String)
  serve : Option (Option String)

/-- How a run of `main` ends: it returns, it dies in `log.Fatalf` (message
logged, exit status 1), or it stays blocked in a call for ever. -/
inductive Outcome
  | returned
  | fatal (msg : String)
  | blocked
  deriving DecidableEq, Repr

/-- A run of `main`: its effects in order, how it ended, and the values of the
local variables `domains`, `pool` and `http` (the latter two once assigned). -/
structure Run where
  trace : List Effect
  outcome : Outcome
  domains : List String
  pool : Option AppPool
  http : Option HTTPServer
  deriving DecidableEq, Repr

/-! ## The function `main` -/

/-- Lines 98-115: the server is configured, set up and served. -/
def serve (f : Flags) (env : Env) (httpPort tlsPort : Int) (domains : List String)
    (pool : AppPool) (t : List Effect) : Run :=
  let http : HTTPServer :=
    { Address := ":" ++ fmtD httpPort
      TLSAddress := ":" ++ fmtD tlsPort
      Pool := some Addr.pool
      Debug := f.fDebug
      Events := some Addr.events }
  let _ := env.setup
  let t := t ++ [Effect.httpSetup http,
    Effect.printf "! Puma dev listening on http and https\n"]
  let _ := env.serveTLS
  let t := t ++ [Effect.go (Goroutine.serveTLS http), Effect.httpServe http]
  match env.serve with
  | none => ⟨t, Outcome.blocked, domains, some pool, some http⟩
  | some (some err) =>
    let msg := "Error listening: " ++ err
    ⟨t ++ [Effect.logFatalf msg], Outcome.fatal msg, domains, some pool, some http⟩
  | some none => ⟨t, Outcome.returned, domains, some pool, some http⟩

/-- Lines 59-96: the pool is configured, the two signal handlers are started,
the certificate is set up and the banner is printed. -/
def startup (f : Flags) (env : Env) (httpPort tlsPort : Int) (domains : List String)
    (dir : String) (t : List Effect) : Run :=
  let pool : AppPool :=
    { Dir := dir
      IdleTime := f.fTimeout
      Events := some Addr.events }
  let t := t ++ [Effect.makeChan Chan.purge 1,
    Effect.signalNotify Chan.purge [Signal.SIGUSR1],
    Effect.go Goroutine.purgeLoop,
    Effect.makeChan Chan.stop 1,
    Effect.signalNotify Chan.stop [Signal.Interrupt, Signal.SIGQUIT, Signal.SIGTERM],
    Effect.go Goroutine.stopHandler,
    Effect.setupOurCert]
  match env.setupOurCert with
  | some err =>
    let msg := "Unable to setup TLS cert: " ++ err
    ⟨t ++ [Effect.logFatalf msg], Outcome.fatal msg, domains, some pool, none⟩
  | none =>
    let t := t ++ [Effect.printf ("* Directory for apps: " ++ dir ++ "\n"),
      Effect.printf ("* Domains: " ++ stringsJoin domains ", " ++ "\n"),
      Effect.printf ("* HTTP Server port: " ++ fmtD httpPort ++ "\n"),
      Effect.printf ("* HTTPS Server port: " ++ fmtD tlsPort ++ "\n")]
    serve f env httpPort tlsPort domains pool t

/-- The function `main` of `main_linux.go`. -/
def main (f : Flags) (env : Env) : Run :=
  let t := [Effect.parseFlags, Effect.allCheck]
  let domains := stringsSplit f.fDomains ':'
  if f.fStop then
    let t := t ++ [Effect.devStop]
    match env.stop with
    | some err =>
      let msg := "Unable to stop puma-dev servers: " ++ err
      ⟨t ++ [Effect.logFatalf msg], Outcome.fatal msg, domains, none, none⟩
    | none => ⟨t, Outcome.returned, domains, none, none⟩
  else
    let httpPort := if f.fSysBind then 80 else f.fHTTPPort
    let tlsPort := if f.fSysBind then 443 else f.fTLSPort
    let t := t ++ [Effect.homedirExpand f.fDir]
    match env.expand f.fDir with
    | Except.error err =>
      let msg := "Unable to expand dir: " ++ err
      ⟨t ++ [Effect.logFatalf msg], Outcome.fatal msg, domains, none, none⟩
    | Except.ok dir =>
      let t := t ++ [Effect.mkdirAll dir 0o755]
      match env.mkdirAll dir with
      | some err =>
        let msg := "Unable to create dir \x27" ++ dir ++ "\x27: " ++ err
        ⟨t ++ [Effect.logFatalf msg], Outcome.fatal msg, domains, none, none⟩
      | none => startup f env httpPort tlsPort domains dir t

/-- An environment in which every call succeeds, the home directory is
`/home/u`, and `Serve` blocks for ever. -/
def okEnv : Env where
  stop := none
  expand := fun p => Except.ok ("/home/u" ++ p.drop 1)
  mkdirAll := fun _ => none
  setupOurCert := none
  setup := none
  serveTLS := none
  serve := none

/-! ## The two signal-handling goroutines -/

/-- What can happen to a handler goroutine: the process is sent a signal, the
goroutine is scheduled and runs its next statement (if it is not blocked), or
the call of `pool.Purge` it is waiting in returns. -/
inductive Event
  | signal (s : Signal)
  | step
  | purgeDone
  deriving DecidableEq, Repr

/-- Delivery by `signal.Notify` into a channel of capacity 1 holding `buf`
signals: the send does not block, and a signal that finds the channel full, or
that the channel is not subscribed to, is dropped. -/
def notifySend (subscribed : List Signal) (s : Signal) (buf : Nat) : Nat :=
  if s ∈ subscribed ∧ buf < 1 then buf + 1 else buf

/-- Program points of the goroutine of lines 70-75. -/
inductive PurgePc
  | recv
  | call
  | inPurge
  deriving DecidableEq, Repr

/-- State of the bulk-restart goroutine: the content of channel `purge`, the
program point, and the effects so far. -/
structure PurgeLoop where
  buf : Nat
  pc : PurgePc
  trace : List Effect
  deriving DecidableEq, Repr

namespace PurgeLoop

/-- The goroutine when `go` starts it: at the receive, channel empty. -/
def init : PurgeLoop := ⟨0, PurgePc.recv, []⟩

/-- One event of `for { <-purge; pool.Purge() }`. -/
def next (st : PurgeLoop) : Event → PurgeLoop
  | Event.signal s => { st with buf := notifySend [Signal.SIGUSR1] s st.buf }
  | Event.step =>
    match st.pc with
    | PurgePc.recv =>
      if 0 < st.buf then
        ⟨st.buf - 1, PurgePc.call, st.trace ++ [Effect.chanRecv Chan.purge]⟩
      else st
    | PurgePc.call => ⟨st.buf, PurgePc.inPurge, st.trace ++ [Effect.purgeCall]⟩
    | PurgePc.inPurge => st
  | Event.purgeDone =>
    match st.pc with
    | PurgePc.inPurge => ⟨st.buf, PurgePc.recv, st.trace ++ [Effect.purgeReturn]⟩
    | _ => st

/-- The goroutine after a sequence of events. -/
def run (st : PurgeLoop) (evs : List Event) : PurgeLoop := evs.foldl next st

end PurgeLoop

/-- A schedule of `n` rounds: a SIGUSR1 arrives, the goroutine receives it and
calls `Purge`, and `Purge` returns. -/
def purgeRounds : Nat → List Event
  | 0 => []
  | n + 1 => purgeRounds n ++ [Event.signal Signal.SIGUSR1, Event.step, Event.step, Event.purgeDone]

/-- Program points of the goroutine of lines 81-86; `done` is the process
having exited. -/
inductive StopPc
  | recv
  | print
  | call
  | inPurge
  | exit
  | done
  deriving DecidableEq, Repr

/-- Number of statements of the shutdown goroutine completed at a program
point. -/
def StopPc.pos : StopPc → Nat
  | StopPc.recv => 0
  | StopPc.print => 1
  | StopPc.call => 2
  | StopPc.inPurge => 3
  | StopPc.exit => 4
  | StopPc.done => 5

/-- State of the shutdown goroutine: the content of channel `stop`, the
program point, and the effects so far. -/
structure StopHandler where
  buf : Nat
  pc : StopPc
  trace : List Effect
  deriving DecidableEq, Repr

namespace StopHandler

/-- The goroutine when `go` starts it: at the receive, channel empty. -/
def init : StopHandler := ⟨0, StopPc.recv, []⟩

/-- One event of `<-stop; fmt.Printf(...); pool.Purge(); os.Exit(0)`.  Once the
process has exited nothing happens any more. -/
def next (st : StopHandler) : Event → StopHandler
  | Event.signal s =>
    match st.pc with
    | StopPc.done => st
    | _ => { st with
        buf := notifySend [Signal.Interrupt, Signal.SIGQUIT, Signal.SIGTERM] s st.buf }
  | Event.step =>
    match st.pc with
    | StopPc.recv =>
      if 0 < st.buf then
        ⟨st.buf - 1, StopPc.print, st.trace ++ [Effect.chanRecv Chan.stop]⟩
      else st
    | StopPc.print =>
      ⟨st.buf, StopPc.call, st.trace ++ [Effect.printf "! Shutdown requested\n"]⟩
    | StopPc.call => ⟨st.buf, StopPc.inPurge, st.trace ++ [Effect.purgeCall]⟩
    | StopPc.inPurge => st
    | StopPc.exit => ⟨st.buf, StopPc.done, st.trace ++ [Effect.osExit 0]⟩
    | StopPc.done => st
  | Event.purgeDone =>
    match st.pc with
    | StopPc.inPurge => ⟨st.buf, StopPc.exit, st.trace ++ [Effect.purgeReturn]⟩
    | _ => st

/-- The goroutine after a sequence of events. -/
def run (st : StopHandler) (evs : List Event) : StopHandler := evs.foldl next st

end StopHandler

/-- The effects of one complete execution of the shutdown goroutine. -/
def stopScript : List Effect :=
  [Effect.chanRecv Chan.stop, Effect.printf "! Shutdown requested\n",
   Effect.purgeCall, Effect.purgeReturn, Effect.osExit 0]

/-- The schedule in which signal `s` arrives, the goroutine runs up to the call
of `Purge`, `Purge` returns, and the goroutine runs once more. -/
def stopSchedule (s : Signal) : List Event :=
  [Event.signal s, Event.step, Event.step, Event.step, Event.purgeDone, Event.step]

/-- The environment `okEnv` except that `dev.SetupOurCert` fails. -/
def certFailEnv : Env := { okEnv with setupOurCert := some "read-only file system" }

/-- The environment `okEnv` except that `Serve` returns the error `err`. -/
def serveFailEnv (err : String) : Env := { okEnv with serve := some (some err) }

/-- The environment `okEnv` except that `Serve` returns without an error. -/
def serveReturnsEnv : Env := { okEnv with serve := some none }

/-- The environment `okEnv` except that `dev.Stop` fails. -/
def stopFailEnv : Env := { okEnv with stop := some "no servers" }

/-! ## Segments of the trace of `main` -/

/-- The server `main` configures from the flags. -/
def httpOf (f : Flags) : HTTPServer :=
  { Address := ":" ++ fmtD (if f.fSysBind then 80 else f.fHTTPPort)
    TLSAddress := ":" ++ fmtD (if f.fSysBind then 443 else f.fTLSPort)
    Pool := some Addr.pool
    Debug := f.fDebug
    Events := some Addr.events }

/-- The effects of `main` up to and including the call of `dev.SetupOurCert`. -/
def bootTrace (f : Flags) (dir : String) : List Effect :=
  [Effect.parseFlags, Effect.allCheck, Effect.homedirExpand f.fDir,
   Effect.mkdirAll dir 0o755,
   Effect.makeChan Chan.purge 1,
   Effect.signalNotify Chan.purge [Signal.SIGUSR1],
   Effect.go Goroutine.purgeLoop,
   Effect.makeChan Chan.stop 1,
   Effect.signalNotify Chan.stop [Signal.Interrupt, Signal.SIGQUIT, Signal.SIGTERM],
   Effect.go Goroutine.stopHandler,
   Effect.setupOurCert]

/-- The four banner lines printed after the certificate is set up. -/
def bannerTrace (f : Flags) (dir : String) : List Effect :=
  [Effect.printf ("* Directory for apps: " ++ dir ++ "\n"),
   Effect.printf ("* Domains: " ++ stringsJoin (stringsSplit f.fDomains ':') ", " ++ "\n"),
   Effect.printf ("* HTTP Server port: " ++ fmtD (if f.fSysBind then 80 else f.fHTTPPort) ++ "\n"),
   Effect.printf ("* HTTPS Server port: " ++ fmtD (if f.fSysBind then 443 else f.fTLSPort) ++ "\n")]

/-- The effects of lines 106-112. -/
def serveTrace (srv : HTTPServer) : List Effect :=
  [Effect.httpSetup srv, Effect.printf "! Puma dev listening on http and https\n",
   Effect.go (Goroutine.serveTLS srv), Effect.httpServe srv]

/-! ## Lemmas on `strings.Split` -/

theorem stringsCount_eq_count (sep : Char) (s : List Char) :
    stringsCount sep s = s.count sep := by
  induction s with
  | nil => rfl
  | cons c cs ih =>
    by_cases h : c = sep
    · subst h; simp [stringsCount, ih]
    · simp [stringsCount, h, ih, List.count_cons]

theorem stringsIndex_none (sep : Char) (s : List Char)
    (h : stringsIndex sep s = none) : sep ∉ s := by
  induction s with
  | nil => simp
  | cons c cs ih =>
    by_cases hc : c = sep
    · simp [stringsIndex, hc] at h
    · simp only [stringsIndex, hc, if_false, Option.map_eq_none'] at h
      intro hm
      rcases List.mem_cons.1 hm with e | e
      · exact hc e.symm
      · exact ih h e

theorem stringsIndex_some (sep : Char) (s : List Char) (m : Nat)
    (h : stringsIndex sep s = some m) :
    s = s.take m ++ sep :: s.drop (m + 1) ∧ sep ∉ s.take m ∧
      stringsCount sep s = stringsCount sep (s.drop (m + 1)) + 1 := by
  induction s generalizing m with
  | nil => simp [stringsIndex] at h
  | cons c cs ih =>
    by_cases hc : c = sep
    · simp only [stringsIndex, hc, if_true, Option.some.injEq] at h
      subst h; subst hc
      simp [stringsCount]
    · simp only [stringsIndex, hc, if_false, Option.map_eq_some'] at h
      obtain ⟨k, hk, rfl⟩ := h
      obtain ⟨h1, h2, h3⟩ := ih k hk
      refine ⟨?_, ?_, ?_⟩
      · simp only [List.take_succ_cons, List.drop_succ_cons, List.cons_append]
        rw [← h1]
      · simp only [List.take_succ_cons, List.mem_cons, not_or]
        exact ⟨fun e => hc e.symm, h2⟩
      · simp only [stringsCount, hc, if_false, List.drop_succ_cons]
        exact h3

theorem genSplitLoop_spec (sep : Char) (k : Nat) (s : List Char)
    (hk : stringsCount sep s = k) :
    (genSplitLoop sep k s).length = k + 1 ∧
      (∀ x ∈ genSplitLoop sep k s, sep ∉ x) ∧
      joinChars [sep] (genSplitLoop sep k s) = s := by
  induction k generalizing s with
  | zero =>
    refine ⟨rfl, ?_, rfl⟩
    intro x hx
    simp only [genSplitLoop, List.mem_singleton] at hx
    subst hx
    rw [stringsCount_eq_count] at hk
    exact List.count_eq_zero.1 hk
  | succ k ih =>
    cases hi : stringsIndex sep s with
    | none =>
      have := stringsIndex_none sep s hi
      rw [stringsCount_eq_count, List.count_eq_zero_of_not_mem this] at hk
      omega
    | some m =>
      obtain ⟨h1, h2, h3⟩ := stringsIndex_some sep s m hi
      obtain ⟨i1, i2, i3⟩ := ih (s.drop (m + 1)) (by omega)
      simp only [genSplitLoop, hi]
      refine ⟨by simp [i1], ?_, ?_⟩
      · intro x hx
        rcases List.mem_cons.1 hx with e | e
        · subst e; exact h2
        · exact i2 x e
      · cases hg : genSplitLoop sep k (List.drop (m + 1) s) with
        | nil => rw [hg] at i1; simp at i1
        | cons b rest =>
          rw [hg] at i3
          simp only [joinChars, i3]
          simpa using h1.symm

/-! ## The runs of `main`, branch by branch -/

theorem main_domains (f : Flags) (env : Env) :
    (main f env).domains = stringsSplit f.fDomains ':' := by
  unfold main startup serve
  simp only
  split
  · split <;> rfl
  · split
    · rfl
    · split
      · rfl
      · split
        · rfl
        · split <;> rfl

theorem main_stop (f : Flags) (env : Env) (h : f.fStop = true) :
    main f env =
      match env.stop with
      | some err =>
        ⟨[Effect.parseFlags, Effect.allCheck, Effect.devStop,
            Effect.logFatalf ("Unable to stop puma-dev servers: " ++ err)],
          Outcome.fatal ("Unable to stop puma-dev servers: " ++ err),
          stringsSplit f.fDomains ':', none, none⟩
      | none =>
        ⟨[Effect.parseFlags, Effect.allCheck, Effect.devStop], Outcome.returned,
          stringsSplit f.fDomains ':', none, none⟩ := by
  unfold main
  simp only [h, if_true]
  split <;> rfl

theorem main_boot (f : Flags) (env : Env) (dir : String) (hstop : f.fStop = false)
    (hexp : env.expand f.fDir = Except.ok dir) (hmk : env.mkdirAll dir = none) :
    main f env =
      match env.setupOurCert with
      | some err =>
        ⟨bootTrace f dir ++ [Effect.logFatalf ("Unable to setup TLS cert: " ++ err)],
          Outcome.fatal ("Unable to setup TLS cert: " ++ err),
          stringsSplit f.fDomains ':', some ⟨dir, f.fTimeout, some Addr.events⟩, none⟩
      | none =>
        match env.serve with
        | none =>
          ⟨bootTrace f dir ++ bannerTrace f dir ++ serveTrace (httpOf f), Outcome.blocked,
            stringsSplit f.fDomains ':', some ⟨dir, f.fTimeout, some Addr.events⟩,
            some (httpOf f)⟩
        | some (some err) =>
          ⟨bootTrace f dir ++ bannerTrace f dir ++ serveTrace (httpOf f) ++
              [Effect.logFatalf ("Error listening: " ++ err)],
            Outcome.fatal ("Error listening: " ++ err),
            stringsSplit f.fDomains ':', some ⟨dir, f.fTimeout, some Addr.events⟩,
            some (httpOf f)⟩
        | some none =>
          ⟨bootTrace f dir ++ bannerTrace f dir ++ serveTrace (httpOf f), Outcome.returned,
            stringsSplit f.fDomains ':', some ⟨dir, f.fTimeout, some Addr.events⟩,
            some (httpOf f)⟩ := by
  unfold main startup serve
  simp only [hstop, hexp, hmk]
  cases env.setupOurCert with
  | some err => rfl
  | none =>
    cases env.serve with
    | none => rfl
    | some r => cases r <;> rfl

theorem main_expand_error (f : Flags) (env : Env) (err : String) (hstop : f.fStop = false)
    (hexp : env.expand f.fDir = Except.error err) :
    main f env =
      ⟨[Effect.parseFlags, Effect.allCheck, Effect.homedirExpand f.fDir,
          Effect.logFatalf ("Unable to expand dir: " ++ err)],
        Outcome.fatal ("Unable to expand dir: " ++ err),
        stringsSplit f.fDomains ':', none, none⟩ := by
  unfold main
  simp only [hstop, hexp]
  rfl

theorem main_mkdir_error (f : Flags) (env : Env) (dir err : String) (hstop : f.fStop = false)
    (hexp : env.expand f.fDir = Except.ok dir) (hmk : env.mkdirAll dir = some err) :
    main f env =
      ⟨[Effect.parseFlags, Effect.allCheck, Effect.homedirExpand f.fDir,
          Effect.mkdirAll dir 0o755,
          Effect.logFatalf ("Unable to create dir \x27" ++ dir ++ "\x27: " ++ err)],
        Outcome.fatal ("Unable to create dir \x27" ++ dir ++ "\x27: " ++ err),
        stringsSplit f.fDomains ':', none, none⟩ := by
  unfold main
  simp only [hstop, hexp, hmk]
  rfl

theorem main_cases (f : Flags) (env : Env) :
    f.fStop = true ∨
    (f.fStop = false ∧ ∃ err, env.expand f.fDir = Except.error err) ∨
    (f.fStop = false ∧ ∃ dir err, env.expand f.fDir = Except.ok dir ∧
      env.mkdirAll dir = some err) ∨
    (f.fStop = false ∧ ∃ dir, env.expand f.fDir = Except.ok dir ∧ env.mkdirAll dir = none) := by
  cases hs : f.fStop with
  | true => exact Or.inl rfl
  | false =>
    right
    cases he : env.expand f.fDir with
    | error err => exact Or.inl ⟨rfl, err, rfl⟩
    | ok dir =>
      right
      cases hm : env.mkdirAll dir with
      | some err => exact Or.inl ⟨rfl, dir, err, rfl, hm⟩
      | none => exact Or.inr ⟨rfl, dir, rfl, hm⟩

/-- What a run that has assigned `http` looks like. -/
theorem main_http_some (f : Flags) (env : Env) (srv : HTTPServer)
    (h : (main f env).http = some srv) :
    srv = httpOf f ∧ f.fStop = false ∧ env.setupOurCert = none ∧
      ∃ dir, env.expand f.fDir = Except.ok dir ∧ env.mkdirAll dir = none := by
  rcases main_cases f env with hs | ⟨hs, err, he⟩ | ⟨hs, dir, err, he, hm⟩ | ⟨hs, dir, he, hm⟩
  · rw [main_stop f env hs] at h
    cases hst : env.stop <;> simp [hst] at h
  · rw [main_expand_error f env err hs he] at h
    simp at h
  · rw [main_mkdir_error f env dir err hs he hm] at h
    simp at h
  · rw [main_boot f env dir hs he hm] at h
    cases hc : env.setupOurCert with
    | some err => simp [hc] at h
    | none =>
      refine ⟨?_, hs, rfl, dir, he, hm⟩
      cases hsv : env.serve with
      | none => simp [hc, hsv] at h; exact h.symm
      | some r => cases r <;> (simp [hc, hsv] at h; exact h.symm)

/-- What a run that has assigned `pool` looks like. -/
theorem main_pool_some (f : Flags) (env : Env) (p : AppPool)
    (h : (main f env).pool = some p) :
    f.fStop = false ∧ ∃ dir, env.expand f.fDir = Except.ok dir ∧ env.mkdirAll dir = none ∧
      p = ⟨dir, f.fTimeout, some Addr.events⟩ := by
  rcases main_cases f env with hs | ⟨hs, err, he⟩ | ⟨hs, dir, err, he, hm⟩ | ⟨hs, dir, he, hm⟩
  · rw [main_stop f env hs] at h
    cases hst : env.stop <;> simp [hst] at h
  · rw [main_expand_error f env err hs he] at h
    simp at h
  · rw [main_mkdir_error f env dir err hs he hm] at h
    simp at h
  · rw [main_boot f env dir hs he hm] at h
    refine ⟨hs, dir, he, hm, ?_⟩
    cases hc : env.setupOurCert with
    | some err => simp [hc] at h; exact h.symm
    | none =>
      cases hsv : env.serve with
      | none => simp [hc, hsv] at h; exact h.symm
      | some r => cases r <;> (simp [hc, hsv] at h; exact h.symm)

/-- What a run that has called `dev.SetupOurCert` looks like. -/
theorem main_cert_called (f : Flags) (env : Env)
    (h : Effect.setupOurCert ∈ (main f env).trace) :
    f.fStop = false ∧ ∃ dir, env.expand f.fDir = Except.ok dir ∧ env.mkdirAll dir = none := by
  rcases main_cases f env with hs | ⟨hs, err, he⟩ | ⟨hs, dir, err, he, hm⟩ | ⟨hs, dir, he, hm⟩
  · rw [main_stop f env hs] at h
    cases hst : env.stop <;> simp [hst] at h
  · rw [main_expand_error f env err hs he] at h
    simp at h
  · rw [main_mkdir_error f env dir err hs he hm] at h
    simp at h
  · exact ⟨hs, dir, he, hm⟩

/-! ## The claims about `main` -/

/-- Claim C3: if `dev.SetupOurCert` is called and returns an error, `main` dies in
`log.Fatalf` with the message "Unable to setup TLS cert: ..." as its last
effect, the variable `http` is never assigned, and none of `HTTPServer.Setup`,
`HTTPServer.Serve` and `HTTPServer.ServeTLS` occurs in the trace. -/
theorem setupOurCert_error_is_fatal (f : Flags) (env : Env) (err : String)
    (hcall : Effect.setupOurCert ∈ (main f env).trace)
    (herr : env.setupOurCert = some err) :
    (main f env).outcome = Outcome.fatal ("Unable to setup TLS cert: " ++ err) ∧
    (main f env).trace.getLast? =
      some (Effect.logFatalf ("Unable to setup TLS cert: " ++ err)) ∧
    (main f env).http = none ∧
    ∀ srv, Effect.httpSetup srv ∉ (main f env).trace ∧
      Effect.httpServe srv ∉ (main f env).trace ∧
      Effect.go (Goroutine.serveTLS srv) ∉ (main f env).trace := by
  obtain ⟨hs, dir, he, hm⟩ := main_cert_called f env hcall
  rw [main_boot f env dir hs he hm]
  simp [herr, bootTrace]

theorem setupOurCert_error_is_fatal_witness :
    Effect.setupOurCert ∈ (main defaultFlags certFailEnv).trace ∧
    certFailEnv.setupOurCert = some "read-only file system" ∧
    (main defaultFlags certFailEnv).outcome =
      Outcome.fatal "Unable to setup TLS cert: read-only file system" ∧
    (main defaultFlags certFailEnv).http = none :=
  have h := setupOurCert_error_is_fatal defaultFlags certFailEnv "read-only file system"
    (by decide) rfl
  ⟨by decide, rfl, h.1, h.2.2.1⟩

/-- Claim C4: whenever `main` configures its `HTTPServer`, the server has `Address`
":" followed by the decimal effective HTTP port and `TLSAddress` ":" followed by
the decimal effective HTTPS port; the effective ports are 80 and 443 when
`sysbind` is set, whatever `http-port` and `https-port` say, and the flag values
otherwise, which default to 9280 and 9283 (addresses ":9280" and ":9283"). -/
theorem http_addresses (f : Flags) (env : Env) (srv : HTTPServer)
    (h : (main f env).http = some srv) :
    srv.Address = ":" ++ fmtD (if f.fSysBind then 80 else f.fHTTPPort) ∧
    srv.TLSAddress = ":" ++ fmtD (if f.fSysBind then 443 else f.fTLSPort) ∧
    (f.fSysBind = true → srv.Address = ":80" ∧ srv.TLSAddress = ":443") ∧
    (f.fSysBind = false →
      srv.Address = ":" ++ fmtD f.fHTTPPort ∧ srv.TLSAddress = ":" ++ fmtD f.fTLSPort) ∧
    Effect.httpSetup srv ∈ (main f env).trace ∧
    (∀ s, Effect.httpSetup s ∈ (main f env).trace → s = srv) ∧
    defaultFlags.fSysBind = false ∧
    defaultFlags.fHTTPPort = 9280 ∧ defaultFlags.fTLSPort = 9283 ∧
    ":" ++ fmtD defaultFlags.fHTTPPort = ":9280" ∧
    ":" ++ fmtD defaultFlags.fTLSPort = ":9283" := by
  obtain ⟨rfl, hs, hc, dir, he, hm⟩ := main_http_some f env srv h
  refine ⟨rfl, rfl, ?_, ?_, ?_, ?_, rfl, rfl, rfl, by decide, by decide⟩
  · intro hb
    simp only [httpOf, hb, if_true]
    exact ⟨by decide, by decide⟩
  · intro hb
    simp only [httpOf, hb]
    exact ⟨rfl, rfl⟩
  · rw [main_boot f env dir hs he hm]
    cases hsv : env.serve with
    | none => simp [hc, serveTrace]
    | some r => cases r <;> simp [hc, serveTrace]
  · intro s
    rw [main_boot f env dir hs he hm]
    cases hsv : env.serve with
    | none => simp [hc, serveTrace, bootTrace, bannerTrace]
    | some r => cases r <;> simp [hc, serveTrace, bootTrace, bannerTrace]

theorem http_addresses_witness :
    (main { defaultFlags with fSysBind := true, fHTTPPort := 3000 } okEnv).http =
      some ⟨":80", ":443", some Addr.pool, false, some Addr.events⟩ ∧
    (⟨":80", ":443", some Addr.pool, false, some Addr.events⟩ : HTTPServer).Address =
      ":" ++ fmtD (if true then 80 else 3000) :=
  ⟨by decide,
    (http_addresses { defaultFlags with fSysBind := true, fHTTPPort := 3000 } okEnv
      ⟨":80", ":443", some Addr.pool, false, some Addr.events⟩ (by decide)).1⟩

/-- Claim C6: whenever `main` configures its `AppPool`, the pool has `Dir` equal to
the home-expanded value of the `-dir` flag and `IdleTime` equal to the value of
the `-timeout` flag; `Dir` is the directory, and the only one, `main` created
with `os.MkdirAll`; the timeout defaults to 15 minutes, that is 900 seconds or
900000000000 nanoseconds. -/
theorem pool_config (f : Flags) (env : Env) (p : AppPool)
    (h : (main f env).pool = some p) :
    env.expand f.fDir = Except.ok p.Dir ∧
    p.IdleTime = f.fTimeout ∧
    Effect.mkdirAll p.Dir 0o755 ∈ (main f env).trace ∧
    (∀ d perm, Effect.mkdirAll d perm ∈ (main f env).trace → d = p.Dir) ∧
    defaultFlags.fTimeout = 15 * 60 * timeSecond ∧
    defaultFlags.fTimeout = 900 * timeSecond ∧
    defaultFlags.fTimeout = 900000000000 := by
  obtain ⟨hs, dir, he, hm, rfl⟩ := main_pool_some f env p h
  refine ⟨he, rfl, ?_, ?_, rfl, by decide, by decide⟩
  · rw [main_boot f env dir hs he hm]
    cases hc : env.setupOurCert with
    | some err => simp [bootTrace]
    | none =>
      cases hsv : env.serve with
      | none => simp [bootTrace]
      | some r => cases r <;> simp [bootTrace]
  · intro d perm
    rw [main_boot f env dir hs he hm]
    cases hc : env.setupOurCert with
    | some err => simp [bootTrace]; intro hd _; exact hd
    | none =>
      cases hsv : env.serve with
      | none => simp [bootTrace, bannerTrace, serveTrace]; intro hd _; exact hd
      | some r =>
        cases r <;> (simp [bootTrace, bannerTrace, serveTrace]; intro hd _; exact hd)

theorem pool_config_witness :
    (main defaultFlags okEnv).pool =
      some ⟨"/home/u/.puma-dev", 900000000000, some Addr.events⟩ ∧
    okEnv.expand defaultFlags.fDir = Except.ok "/home/u/.puma-dev" ∧
    Effect.mkdirAll "/home/u/.puma-dev" 0o755 ∈ (main defaultFlags okEnv).trace :=
  have h := pool_config defaultFlags okEnv
    ⟨"/home/u/.puma-dev", 900000000000, some Addr.events⟩ (by decide)
  ⟨by decide, h.1, h.2.2.1⟩

/-- Claim C7: when the stop flag is set, the trace of `main` is `parseFlags`,
`allCheck` and one call of `dev.Stop`, followed by `log.Fatalf` exactly when
`dev.Stop` returned an error: the apps directory is neither expanded nor
created, no signal handler is installed, the certificate is not set up and no
server is configured or started; `main` returns normally when `dev.Stop`
succeeds and dies in `log.Fatalf` when it fails. -/
theorem stop_flag_run (f : Flags) (env : Env) (h : f.fStop = true) :
    (main f env).trace.count Effect.devStop = 1 ∧
    (main f env).pool = none ∧ (main f env).http = none ∧
    (env.stop = none →
      (main f env).trace = [Effect.parseFlags, Effect.allCheck, Effect.devStop] ∧
      (main f env).outcome = Outcome.returned) ∧
    (∀ err, env.stop = some err →
      (main f env).trace = [Effect.parseFlags, Effect.allCheck, Effect.devStop,
        Effect.logFatalf ("Unable to stop puma-dev servers: " ++ err)] ∧
      (main f env).outcome = Outcome.fatal ("Unable to stop puma-dev servers: " ++ err)) ∧
    (∀ e ∈ (main f env).trace,
      e = Effect.parseFlags ∨ e = Effect.allCheck ∨ e = Effect.devStop ∨
        ∃ msg, e = Effect.logFatalf msg) := by
  rw [main_stop f env h]
  cases hst : env.stop with
  | none => simp
  | some err => simp

theorem stop_flag_run_witness :
    ({ defaultFlags with fStop := true } : Flags).fStop = true ∧
    (main { defaultFlags with fStop := true } okEnv).trace =
      [Effect.parseFlags, Effect.allCheck, Effect.devStop] ∧
    (main { defaultFlags with fStop := true } okEnv).outcome = Outcome.returned :=
  ⟨rfl, (stop_flag_run { defaultFlags with fStop := true } okEnv rfl).2.2.2.1 rfl⟩

/-- Claim C9: for every value `d` of the `-d` flag, the domain list `main` computes is
`strings.Split(d, ":")`; it is not empty, has one more element than `d` has ":"
characters, none of its elements contains a ":", and joining it with ":" gives
back `d`; the default "dev" yields the single domain "dev" and an empty `d`
yields a single empty domain. -/
theorem domains_split (f : Flags) (env : Env) :
    (main f env).domains = stringsSplit f.fDomains ':' ∧
    (main f env).domains ≠ [] ∧
    (main f env).domains.length = f.fDomains.data.count ':' + 1 ∧
    (∀ x ∈ (main f env).domains, ':' ∉ x.data) ∧
    stringsJoin (main f env).domains ":" = f.fDomains ∧
    (main defaultFlags env).domains = ["dev"] ∧
    (main { f with fDomains := "" } env).domains = [""] := by
  have hspec := genSplitLoop_spec ':' (stringsCount ':' f.fDomains.data) f.fDomains.data rfl
  obtain ⟨h1, h2, h3⟩ := hspec
  have hlen : (stringsSplit f.fDomains ':').length = f.fDomains.data.count ':' + 1 := by
    rw [← stringsCount_eq_count]
    simp only [stringsSplit, genSplit, List.length_map, h1]
  refine ⟨main_domains f env, ?_, ?_, ?_, ?_, ?_, ?_⟩
  · rw [main_domains]
    intro hnil
    rw [hnil] at hlen
    simp at hlen
  · rw [main_domains]; exact hlen
  · rw [main_domains]
    intro x hx
    simp only [stringsSplit, genSplit, List.mem_map] at hx
    obtain ⟨y, hy, rfl⟩ := hx
    exact h2 y hy
  · rw [main_domains]
    simp only [stringsJoin, stringsSplit, genSplit, List.map_map]
    have hid : (String.data ∘ String.mk) = id := by funext l; rfl
    rw [hid, List.map_id]
    show String.mk (joinChars [':'] _) = _
    rw [h3]
  · rw [main_domains]; decide
  · rw [main_domains]; rfl

/-- Claim C5 (as stated, refuted): two runs that differ only in the `-d` flag, "dev"
against "test", compute different domain lists yet configure, set up and serve
the very same `HTTPServer`; hence no function of the server configuration gives
back the domain list. -/
theorem domains_not_handed_to_server :
    (main defaultFlags okEnv).domains = ["dev"] ∧
    (main { defaultFlags with fDomains := "test" } okEnv).domains = ["test"] ∧
    (main defaultFlags okEnv).http =
      some ⟨":9280", ":9283", some Addr.pool, false, some Addr.events⟩ ∧
    (main { defaultFlags with fDomains := "test" } okEnv).http =
      some ⟨":9280", ":9283", some Addr.pool, false, some Addr.events⟩ ∧
    ¬ ∃ domainSet : HTTPServer → List String, ∀ f env srv,
      (main f env).http = some srv → domainSet srv = (main f env).domains := by
  refine ⟨by decide, by decide, by decide, by decide, ?_⟩
  rintro ⟨g, hg⟩
  have h1 := hg defaultFlags okEnv
    ⟨":9280", ":9283", some Addr.pool, false, some Addr.events⟩ (by decide)
  have h2 := hg { defaultFlags with fDomains := "test" } okEnv
    ⟨":9280", ":9283", some Addr.pool, false, some Addr.events⟩ (by decide)
  rw [h1] at h2
  revert h2
  decide

/-- Claim C5 (amended): the domain list `main` obtains by splitting the `-d` flag on
":" is only printed, joined with ", ", in the banner line "* Domains: ..."; the
`HTTPServer` and the `AppPool` that `main` builds and the way the run ends do
not depend on `-d`, so two runs that differ only in `-d` hand the server the
same configuration. -/
theorem http_config_independent_of_domains (f : Flags) (env : Env) (d : String) :
    (main { f with fDomains := d } env).http = (main f env).http ∧
    (main { f with fDomains := d } env).pool = (main f env).pool ∧
    (main { f with fDomains := d } env).outcome = (main f env).outcome ∧
    (∀ srv, Effect.httpSetup srv ∈ (main { f with fDomains := d } env).trace ↔
      Effect.httpSetup srv ∈ (main f env).trace) ∧
    ((main f env).http ≠ none →
      Effect.printf ("* Domains: " ++ stringsJoin (main f env).domains ", " ++ "\n") ∈
        (main f env).trace) := by
  rcases main_cases f env with hs | ⟨hs, err, he⟩ | ⟨hs, dir, err, he, hm⟩ | ⟨hs, dir, he, hm⟩
  · rw [main_stop f env hs, main_stop { f with fDomains := d } env hs]
    cases hst : env.stop <;> simp
  · rw [main_expand_error f env err hs he,
      main_expand_error { f with fDomains := d } env err hs he]
    simp
  · rw [main_mkdir_error f env dir err hs he hm,
      main_mkdir_error { f with fDomains := d } env dir err hs he hm]
    simp
  · rw [main_boot f env dir hs he hm, main_boot { f with fDomains := d } env dir hs he hm]
    cases hc : env.setupOurCert with
    | some err => simp [bootTrace]
    | none =>
      cases hsv : env.serve with
      | none => simp [bootTrace, bannerTrace, serveTrace, httpOf]
      | some r => cases r <;> simp [bootTrace, bannerTrace, serveTrace, httpOf]

/-- Claim C8 (as stated, refuted): in the default run the `HTTPServer` is given a
reference to the `Events` value, the same one the `AppPool` is given. -/
theorem events_given_to_http_server :
    (main defaultFlags okEnv).http.map HTTPServer.Events = some (some Addr.events) ∧
    (main defaultFlags okEnv).pool.map AppPool.Events = some (some Addr.events) := by
  decide

/-- Claim C8 (amended): in the configuration `main` builds, the `AppPool` and the
`HTTPServer` both receive a reference to the same `Events` value: `pool.Events`
and `http.Events` are the address of the one variable `events`, and the
server also points to the pool. -/
theorem events_shared_by_pool_and_server (f : Flags) (env : Env) :
    (∀ p, (main f env).pool = some p → p.Events = some Addr.events) ∧
    (∀ srv, (main f env).http = some srv →
      srv.Events = some Addr.events ∧ srv.Pool = some Addr.pool ∧
      ∃ p, (main f env).pool = some p ∧ p.Events = srv.Events) := by
  constructor
  · intro p hp
    obtain ⟨-, dir, -, -, rfl⟩ := main_pool_some f env p hp
    rfl
  · intro srv hsrv
    obtain ⟨rfl, hs, hc, dir, he, hm⟩ := main_http_some f env srv hsrv
    refine ⟨rfl, rfl, ⟨dir, f.fTimeout, some Addr.events⟩, ?_, rfl⟩
    rw [main_boot f env dir hs he hm]
    cases hsv : env.serve with
    | none => simp [hc]
    | some r => cases r <;> simp [hc]

/-- Claim C10: on a run that reaches the serving phase the trace ends with
`HTTPServer.Setup`, a banner line, `go ServeTLS` and `Serve`, in this order and
on the server `main` configured, no server call occurring before them; `main`
stays blocked while `Serve` does not return, dies in `log.Fatalf` exactly when
`Serve` returns an error and returns normally when `Serve` returns none; what
`Setup` and `ServeTLS` return changes nothing in the run. -/
theorem serving_phase (f : Flags) (env : Env) (srv : HTTPServer)
    (h : (main f env).http = some srv) :
    (∃ pre post, (main f env).trace =
        pre ++ [Effect.httpSetup srv, Effect.printf "! Puma dev listening on http and https\n",
          Effect.go (Goroutine.serveTLS srv), Effect.httpServe srv] ++ post ∧
      (∀ s, Effect.httpSetup s ∉ pre ∧ Effect.httpServe s ∉ pre ∧
        Effect.go (Goroutine.serveTLS s) ∉ pre) ∧
      (post = [] ∨ ∃ err, env.serve = some (some err) ∧
        post = [Effect.logFatalf ("Error listening: " ++ err)])) ∧
    (env.serve = none → (main f env).outcome = Outcome.blocked) ∧
    (env.serve = some none → (main f env).outcome = Outcome.returned) ∧
    (∀ err, env.serve = some (some err) →
      (main f env).outcome = Outcome.fatal ("Error listening: " ++ err)) ∧
    ((∃ msg, (main f env).outcome = Outcome.fatal msg) ↔ ∃ err, env.serve = some (some err)) ∧
    (∀ a b, main f { env with setup := a, serveTLS := b } = main f env) := by
  obtain ⟨rfl, hs, hc, dir, he, hm⟩ := main_http_some f env srv h
  have hpre : ∀ s, Effect.httpSetup s ∉ bootTrace f dir ++ bannerTrace f dir ∧
      Effect.httpServe s ∉ bootTrace f dir ++ bannerTrace f dir ∧
      Effect.go (Goroutine.serveTLS s) ∉ bootTrace f dir ++ bannerTrace f dir := by
    intro s
    simp [bootTrace, bannerTrace]
  refine ⟨?_, ?_, ?_, ?_, ?_, ?_⟩
  · refine ⟨bootTrace f dir ++ bannerTrace f dir,
      (match env.serve with
        | some (some err) => [Effect.logFatalf ("Error listening: " ++ err)]
        | _ => []), ?_, hpre, ?_⟩
    · rw [main_boot f env dir hs he hm]
      cases hsv : env.serve with
      | none => simp [hc, serveTrace]
      | some r => cases r <;> simp [hc, serveTrace]
    · cases hsv : env.serve with
      | none => exact Or.inl rfl
      | some r =>
        cases r with
        | none => exact Or.inl rfl
        | some err => exact Or.inr ⟨err, rfl, rfl⟩
  · intro hsv
    rw [main_boot f env dir hs he hm]
    simp [hc, hsv]
  · intro hsv
    rw [main_boot f env dir hs he hm]
    simp [hc, hsv]
  · intro err hsv
    rw [main_boot f env dir hs he hm]
    simp [hc, hsv]
  · rw [main_boot f env dir hs he hm]
    cases hsv : env.serve with
    | none => simp [hc]
    | some r => cases r <;> simp [hc]
  · intro a b
    rw [main_boot f env dir hs he hm,
      main_boot f { env with setup := a, serveTLS := b } dir hs he hm]

theorem serving_phase_witness :
    (main defaultFlags (serveFailEnv "address already in use")).http =
      some ⟨":9280", ":9283", some Addr.pool, false, some Addr.events⟩ ∧
    (main defaultFlags (serveFailEnv "address already in use")).outcome =
      Outcome.fatal "Error listening: address already in use" :=
  ⟨by decide,
    (serving_phase defaultFlags (serveFailEnv "address already in use")
      ⟨":9280", ":9283", some Addr.pool, false, some Addr.events⟩ (by decide)).2.2.2.1
      "address already in use" rfl⟩

/-! ## The signal handlers -/

theorem purgeLoop_run_append (st : PurgeLoop) (a b : List Event) :
    PurgeLoop.run st (a ++ b) = PurgeLoop.run (PurgeLoop.run st a) b := by
  simp [PurgeLoop.run, List.foldl_append]

/-- The invariant of the bulk-restart goroutine: it never exits, every receive
but a pending one has been followed by a call of `Purge`, and every call but
the one in progress has returned. -/
theorem purgeLoop_inv_next (st : PurgeLoop) (ev : Event)
    (h : (∀ code, Effect.osExit code ∉ st.trace) ∧
      st.trace.count Effect.purgeCall + (if st.pc = PurgePc.call then 1 else 0) =
        st.trace.count (Effect.chanRecv Chan.purge) ∧
      st.trace.count Effect.purgeReturn + (if st.pc = PurgePc.inPurge then 1 else 0) =
        st.trace.count Effect.purgeCall) :
    (∀ code, Effect.osExit code ∉ (st.next ev).trace) ∧
      (st.next ev).trace.count Effect.purgeCall +
          (if (st.next ev).pc = PurgePc.call then 1 else 0) =
        (st.next ev).trace.count (Effect.chanRecv Chan.purge) ∧
      (st.next ev).trace.count Effect.purgeReturn +
          (if (st.next ev).pc = PurgePc.inPurge then 1 else 0) =
        (st.next ev).trace.count Effect.purgeCall := by
  obtain ⟨buf, pc, trace⟩ := st
  obtain ⟨h1, h2, h3⟩ := h
  cases ev with
  | signal s => exact ⟨h1, h2, h3⟩
  | step =>
    cases pc with
    | recv =>
      simp only [PurgeLoop.next]
      split
      · simp_all [List.count_append]
      · exact ⟨h1, h2, h3⟩
    | call =>
      simp_all [PurgeLoop.next, List.count_append]
    | inPurge => exact ⟨h1, h2, h3⟩
  | purgeDone =>
    cases pc with
    | recv => exact ⟨h1, h2, h3⟩
    | call => exact ⟨h1, h2, h3⟩
    | inPurge =>
      simp_all [PurgeLoop.next, List.count_append]

theorem purgeLoop_inv_run (evs : List Event) (st : PurgeLoop)
    (h : (∀ code, Effect.osExit code ∉ st.trace) ∧
      st.trace.count Effect.purgeCall + (if st.pc = PurgePc.call then 1 else 0) =
        st.trace.count (Effect.chanRecv Chan.purge) ∧
      st.trace.count Effect.purgeReturn + (if st.pc = PurgePc.inPurge then 1 else 0) =
        st.trace.count Effect.purgeCall) :
    (∀ code, Effect.osExit code ∉ (st.run evs).trace) ∧
      (st.run evs).trace.count Effect.purgeCall +
          (if (st.run evs).pc = PurgePc.call then 1 else 0) =
        (st.run evs).trace.count (Effect.chanRecv Chan.purge) ∧
      (st.run evs).trace.count Effect.purgeReturn +
          (if (st.run evs).pc = PurgePc.inPurge then 1 else 0) =
        (st.run evs).trace.count Effect.purgeCall := by
  induction evs generalizing st with
  | nil => exact h
  | cons ev evs ih => exact ih (st.next ev) (purgeLoop_inv_next st ev h)

/-- After `n` complete rounds the goroutine is back at the receive with an
empty channel, having received `n` signals. -/
theorem purgeLoop_run_rounds (n : Nat) :
    (PurgeLoop.run PurgeLoop.init (purgeRounds n)).pc = PurgePc.recv ∧
      (PurgeLoop.run PurgeLoop.init (purgeRounds n)).buf = 0 ∧
      (PurgeLoop.run PurgeLoop.init (purgeRounds n)).trace.count
        (Effect.chanRecv Chan.purge) = n := by
  induction n with
  | zero => decide
  | succ n ih =>
    obtain ⟨h1, h2, h3⟩ := ih
    rw [purgeRounds, purgeLoop_run_append]
    generalize PurgeLoop.run PurgeLoop.init (purgeRounds n) = st at h1 h2 h3
    obtain ⟨buf, pc, trace⟩ := st
    simp only at h1 h2 h3
    subst h1 h2
    simp [PurgeLoop.run, PurgeLoop.next, notifySend, List.count_append, h3]

/-- Claim C2: in every execution of the bulk-restart goroutine no exit occurs, the
number of `Purge` calls is the number of signals consumed, less the one just
received whose call is the next statement, and whenever the goroutine stands at
the receive every signal consumed has had its one `Purge` call, completed; for
every `n`, after `n` rounds of signal, receive, `Purge` and return it has
consumed `n` signals, made and completed exactly `n` `Purge` calls, and the
next SIGUSR1 is received by its next step. -/
theorem purgeLoop_one_purge_per_signal (evs : List Event) (n : Nat) :
    (∀ code, Effect.osExit code ∉ (PurgeLoop.run PurgeLoop.init evs).trace) ∧
    ((PurgeLoop.run PurgeLoop.init evs).trace.count Effect.purgeCall ≤
        (PurgeLoop.run PurgeLoop.init evs).trace.count (Effect.chanRecv Chan.purge) ∧
      (PurgeLoop.run PurgeLoop.init evs).trace.count (Effect.chanRecv Chan.purge) ≤
        (PurgeLoop.run PurgeLoop.init evs).trace.count Effect.purgeCall + 1) ∧
    ((PurgeLoop.run PurgeLoop.init evs).pc = PurgePc.recv →
      (PurgeLoop.run PurgeLoop.init evs).trace.count Effect.purgeCall =
        (PurgeLoop.run PurgeLoop.init evs).trace.count (Effect.chanRecv Chan.purge) ∧
      (PurgeLoop.run PurgeLoop.init evs).trace.count Effect.purgeReturn =
        (PurgeLoop.run PurgeLoop.init evs).trace.count (Effect.chanRecv Chan.purge)) ∧
    ((PurgeLoop.run PurgeLoop.init (purgeRounds n)).pc = PurgePc.recv ∧
      (PurgeLoop.run PurgeLoop.init (purgeRounds n)).trace.count
        (Effect.chanRecv Chan.purge) = n ∧
      (PurgeLoop.run PurgeLoop.init (purgeRounds n)).trace.count Effect.purgeCall = n ∧
      (PurgeLoop.run PurgeLoop.init (purgeRounds n)).trace.count Effect.purgeReturn = n ∧
      (∀ code, Effect.osExit code ∉ (PurgeLoop.run PurgeLoop.init (purgeRounds n)).trace)) ∧
    (PurgeLoop.run PurgeLoop.init
        (purgeRounds n ++ [Event.signal Signal.SIGUSR1, Event.step])).trace =
      (PurgeLoop.run PurgeLoop.init (purgeRounds n)).trace ++ [Effect.chanRecv Chan.purge] := by
  have hinit : (∀ code, Effect.osExit code ∉ PurgeLoop.init.trace) ∧
      PurgeLoop.init.trace.count Effect.purgeCall +
          (if PurgeLoop.init.pc = PurgePc.call then 1 else 0) =
        PurgeLoop.init.trace.count (Effect.chanRecv Chan.purge) ∧
      PurgeLoop.init.trace.count Effect.purgeReturn +
          (if PurgeLoop.init.pc = PurgePc.inPurge then 1 else 0) =
        PurgeLoop.init.trace.count Effect.purgeCall := by
    simp [PurgeLoop.init]
  obtain ⟨a1, a2, a3⟩ := purgeLoop_inv_run evs PurgeLoop.init hinit
  obtain ⟨b1, b2, b3⟩ := purgeLoop_inv_run (purgeRounds n) PurgeLoop.init hinit
  obtain ⟨c1, c2, c3⟩ := purgeLoop_run_rounds n
  refine ⟨a1, ?_, ?_, ⟨c1, c3, ?_, ?_, b1⟩, ?_⟩
  · constructor
    · omega
    · split at a2 <;> omega
  · intro hpc
    simp only [hpc, if_false, reduceCtorEq] at a2 a3
    omega
  · simp only [c1, reduceCtorEq, if_false] at b2
    omega
  · simp only [c1, reduceCtorEq, if_false] at b2 b3
    omega
  · rw [purgeLoop_run_append]
    generalize PurgeLoop.run PurgeLoop.init (purgeRounds n) = st at c1 c2
    obtain ⟨buf, pc, trace⟩ := st
    simp only at c1 c2
    subst c1 c2
    simp [PurgeLoop.run, PurgeLoop.next, notifySend]

theorem stopHandler_inv_next (st : StopHandler) (ev : Event)
    (h : st.trace = stopScript.take st.pc.pos) :
    (st.next ev).trace = stopScript.take (st.next ev).pc.pos := by
  obtain ⟨buf, pc, trace⟩ := st
  simp only at h
  cases ev with
  | signal s => cases pc <;> exact h
  | step =>
    cases pc with
    | recv =>
      simp only [StopHandler.next]
      split
      · subst h; rfl
      · exact h
    | print => subst h; rfl
    | call => subst h; rfl
    | inPurge => exact h
    | exit => subst h; rfl
    | done => exact h
  | purgeDone =>
    cases pc with
    | inPurge => subst h; rfl
    | recv => exact h
    | print => exact h
    | call => exact h
    | exit => exact h
    | done => exact h

theorem stopHandler_inv_run (evs : List Event) (st : StopHandler)
    (h : st.trace = stopScript.take st.pc.pos) :
    (st.run evs).trace = stopScript.take (st.run evs).pc.pos := by
  induction evs generalizing st with
  | nil => exact h
  | cons ev evs ih => exact ih (st.next ev) (stopHandler_inv_next st ev h)

/-- Claim C1: in every execution of the shutdown goroutine the trace is an initial
part of receive, print, `Purge` call, `Purge` return, `os.Exit(0)`: an exit, if
one occurs, has status 0 and comes after a call of `Purge` and after its return;
and once an interrupt, quit or terminate signal is delivered and the goroutine
is scheduled, `Purge` is called, returns, and the process exits with status 0. -/
theorem stopHandler_exit_after_purge (evs : List Event) :
    (∃ rest, (StopHandler.run StopHandler.init evs).trace ++ rest = stopScript) ∧
    (∀ i code, (StopHandler.run StopHandler.init evs).trace[i]? = some (Effect.osExit code) →
      code = 0 ∧ ∃ j k : Nat, k < j ∧ j < i ∧
        (StopHandler.run StopHandler.init evs).trace[k]? = some Effect.purgeCall ∧
        (StopHandler.run StopHandler.init evs).trace[j]? = some Effect.purgeReturn) ∧
    ((StopHandler.run StopHandler.init evs).pc = StopPc.done ↔
      ∃ code, Effect.osExit code ∈ (StopHandler.run StopHandler.init evs).trace) ∧
    (StopHandler.run StopHandler.init (stopSchedule Signal.Interrupt)) =
      ⟨0, StopPc.done, stopScript⟩ ∧
    (StopHandler.run StopHandler.init (stopSchedule Signal.SIGQUIT)) =
      ⟨0, StopPc.done, stopScript⟩ ∧
    (StopHandler.run StopHandler.init (stopSchedule Signal.SIGTERM)) =
      ⟨0, StopPc.done, stopScript⟩ := by
  have hinv := stopHandler_inv_run evs StopHandler.init rfl
  generalize StopHandler.run StopHandler.init evs = st at hinv
  obtain ⟨buf, pc, trace⟩ := st
  simp only at hinv
  refine ⟨⟨stopScript.drop pc.pos, ?_⟩, ?_, ?_, by decide, by decide, by decide⟩
  · rw [hinv]; exact List.take_append_drop _ _
  · intro i code hi
    simp only at hi ⊢
    subst hinv
    cases pc with
    | done =>
      rcases i with _ | _ | _ | _ | _ | i <;>
        simp [stopScript, StopPc.pos] at hi
      subst hi
      exact ⟨rfl, 3, 2, by decide, by decide, rfl, rfl⟩
    | recv => simp [stopScript, StopPc.pos] at hi
    | print => rcases i with _ | i <;> simp [stopScript, StopPc.pos] at hi
    | call => rcases i with _ | _ | i <;> simp [stopScript, StopPc.pos] at hi
    | inPurge => rcases i with _ | _ | _ | i <;> simp [stopScript, StopPc.pos] at hi
    | exit => rcases i with _ | _ | _ | _ | i <;> simp [stopScript, StopPc.pos] at hi
  · simp only
    subst hinv
    cases pc <;> simp [stopScript, StopPc.pos]

/-- Signals that find channel `purge` full are dropped by `signal.Notify`: of
three SIGUSR1 sent before the goroutine is scheduled, one is consumed. -/
theorem purgeLoop_drops_when_full :
    (PurgeLoop.run PurgeLoop.init
      [Event.signal Signal.SIGUSR1, Event.signal Signal.SIGUSR1, Event.signal Signal.SIGUSR1,
        Event.step, Event.step, Event.purgeDone, Event.step]) =
      ⟨0, PurgePc.recv,
        [Effect.chanRecv Chan.purge, Effect.purgeCall, Effect.purgeReturn]⟩ := by
  decide

end PumaDev
